import Mathlib

/-!
Verification development for the earnings-scraper pipeline: a shallow
embedding of the extraction/normalization helpers, the history-row
assembly, the fetch/cache orchestrator and the reconciliation upsert,
with theorems checking the specification's claims against them.

All text manipulation is embedded over `List Char` with structural (or
fuel-indexed) recursion so that every definition evaluates inside the
kernel; `String` values are unpacked through `String.data` at the
boundary.  Python's `float` values are modelled by exact rationals.
-/

namespace Epsilon

/-! ## Character/string utilities (models of the Python string methods used) -/

/-- Model of Python `str.strip` (and Lean's trim): drop whitespace at both ends. -/
def trimL (l : List Char) : List Char :=
  ((l.dropWhile Char.isWhitespace).reverse.dropWhile Char.isWhitespace).reverse

def toLowerL (l : List Char) : List Char := l.map Char.toLower

def toUpperL (l : List Char) : List Char := l.map Char.toUpper

/-- Fuel-indexed worker for `pyReplace`; fuel bounds the number of characters
consumed, so the recursion is structural and kernel-reducible. -/
def replaceAux (pat rep : List Char) : Nat → List Char → List Char
  | 0, l => l
  | _ + 1, [] => []
  | fuel + 1, c :: rest =>
    if pat ≠ [] ∧ pat.isPrefixOf (c :: rest) then
      rep ++ replaceAux pat rep fuel ((c :: rest).drop pat.length)
    else
      c :: replaceAux pat rep fuel rest

/-- Model of Python `str.replace`: replace all non-overlapping occurrences,
left to right. -/
def pyReplace (s pat rep : String) : String :=
  ⟨replaceAux pat.data rep.data s.data.length s.data⟩

/-- Split on whitespace keeping empty pieces (worker for `pySplitWs`). -/
def splitWsAux : List Char → List Char → List (List Char)
  | [], acc => [acc.reverse]
  | c :: rest, acc =>
    if c.isWhitespace then acc.reverse :: splitWsAux rest []
    else splitWsAux rest (c :: acc)

/-- Model of Python `str.split()` with no argument: split on whitespace runs,
dropping empty pieces. -/
def pySplitWs (l : List Char) : List (List Char) :=
  (splitWsAux l []).filter (fun w => w ≠ [])

/-- Join word lists with single spaces (model of `" ".join(...)`). -/
def joinSp : List (List Char) → List Char
  | [] => []
  | [w] => w
  | w :: ws => w ++ ' ' :: joinSp ws

/-- Is `pat` a contiguous infix of `l`?  (model of Python `in` on strings). -/
def isInfixL (pat : List Char) : List Char → Bool
  | [] => pat.isEmpty
  | c :: rest => pat.isPrefixOf (c :: rest) || isInfixL pat rest

/-- Model of Python `str.endswith`. -/
def endsWithL (l suf : List Char) : Bool := suf.reverse.isPrefixOf l.reverse

/-- Model of Python `str.rstrip("/")`. -/
def rstripSlash (s : String) : String :=
  ⟨(s.data.reverse.dropWhile (fun c => c = '/')).reverse⟩

/-- Word character for the regex `\b` boundary (ASCII `\w`). -/
def isWordChar (c : Char) : Bool := c.isAlphanum || c = '_'

/-- Does the (lower-case) word `w` occur at the head of `l`, delimited by
word boundaries, given the preceding character `prev`? -/
def wordAtHead (w : List Char) (prev : Option Char) (l : List Char) : Bool :=
  (match prev with
   | none => true
   | some c => !isWordChar c) &&
  w.isPrefixOf l &&
  (match l.drop w.length with
   | [] => true
   | c :: _ => !isWordChar c)

/-- Scan for a whole-word occurrence of `w` in `l` (both lower-case):
model of `re.search(r"\bw\b", s, re.I)` success on the lowered input. -/
def searchWordAux (w : List Char) : Option Char → List Char → Bool
  | prev, [] => wordAtHead w prev []
  | prev, c :: rest => wordAtHead w prev (c :: rest) || searchWordAux w (some c) rest

def hasWord (w : String) (s : String) : Bool :=
  searchWordAux (toLowerL w.data) none (toLowerL s.data)

/-! ## Value-token parsing (`eh_helper._parse_one_value` and friends) -/

/-- The placeholder tokens the source treats as "no data" (`NO_DATA`). -/
def NO_DATA : List String := ["-", "--", "—", "N/A", "NA", "n/a", ""]

/-- Result of parsing one raw value token (the dict returned by
`_parse_one_value`): numeric-or-opaque value text, optional unit letter,
and the estimate/actual marker (`none` = unmarked). -/
structure ValueTok where
  value : Option String
  unit : Option String
  is_est : Option Bool
deriving Repr, DecidableEq

/-- Model of the regex match `^(-?[\d.]+)\s*([A-Za-z]?)$`: returns the
value text (optional minus, then digits and dots) and the optional
single-letter unit.  The greedy run of `[\d.]+` is maximal; since the
follow set (`\s*`, one optional letter, end) is disjoint from digits and
dots, this is equivalent to the backtracking regex. -/
def matchNumUnit (l : List Char) : Option (String × Option Char) :=
  let (sign, rest) :=
    match l with
    | '-' :: t => (true, t)
    | _ => (false, l)
  let core := rest.takeWhile (fun c => c.isDigit || c = '.')
  let rest2 := rest.dropWhile (fun c => c.isDigit || c = '.')
  if core.isEmpty then none
  else
    let rest3 := rest2.dropWhile Char.isWhitespace
    match rest3 with
    | [] => some (⟨if sign then '-' :: core else core⟩, none)
    | [c] => if c.isAlpha then some (⟨if sign then '-' :: core else core⟩, some c) else none
    | _ => none

/-- The literal substrings `_parse_one_value` strips (in source order)
before the numeric match. -/
def markerStrips : List String := ["(est)", "(actual)", "est", "actual", "$", ",", "*"]

/-- The replace-chain and final strip applied by `_parse_one_value` to a
token before the numeric match. -/
def stripMarkers (s : String) : String :=
  ⟨trimL (markerStrips.foldl (fun cur pat => pyReplace cur pat ("")) s).data⟩

/-- The est/actual marker detection of `_parse_one_value`:
case-insensitive whole-word search for "est"/"estimate", then
"actual". -/
def detectMarker (s : String) : Option Bool :=
  if hasWord ("est") s || hasWord ("estimate") s then some true
  else if hasWord ("actual") s then some false
  else none

/-- The tail of `_parse_one_value`: match the stripped text against the
numeric+unit regex; a non-matching non-empty remainder is kept as
opaque value text, and the unit letter is upper-cased. -/
def numUnitTok (s2 : String) (m : Option Bool) : ValueTok :=
  match matchNumUnit s2.data with
  | some (v, u) => ⟨some v, u.map (fun c => ⟨[c.toUpper]⟩), m⟩
  | none => ⟨if s2 = "" then none else some s2, none, m⟩

/-- Model of `eh_helper._parse_one_value` (underscore dropped from the
source name): placeholder detection, est/actual whole-word marker
detection, symbol stripping, and the numeric+unit match. -/
def parse_one_value (raw : Option String) : ValueTok :=
  match raw with
  | none => ⟨none, none, none⟩
  | some r =>
    if r = "" then ⟨none, none, none⟩
    else
      let s : String := ⟨trimL r.data⟩
      if s ∈ NO_DATA then ⟨none, none, none⟩
      else numUnitTok (stripMarkers s) (detectMarker s)

/-! ## `clean_text` and quarter normalization -/

/-- Model of `eh_helper.clean_text`: collapse whitespace runs to single
spaces; `None`/empty input gives `none`; a bare dash placeholder gives
`none`.  (As in the source, an all-whitespace input collapses to the
empty string, which is returned.) -/
def clean_text : Option String → Option String
  | none => none
  | some s =>
    if s = "" then none
    else
      let t : String := ⟨joinSp (pySplitWs s.data)⟩
      if t = "-" ∨ t = "--" ∨ t = "—" then none else some t

/-- Match one quarter pattern at the head of `l`: the marker characters
(checked case-insensitively by the caller's pattern functions), then one
or more whitespace characters, then exactly four digits (further digits
may follow, as in the regex `\d{4}` without a boundary).  Returns the
matched characters. -/
def quarterTailAt (pre : List Char) (l : List Char) : Option (List Char) :=
  let ws := l.takeWhile Char.isWhitespace
  let rest := l.dropWhile Char.isWhitespace
  if ws.isEmpty then none
  else
    match rest with
    | d1 :: d2 :: d3 :: d4 :: _ =>
      if d1.isDigit && d2.isDigit && d3.isDigit && d4.isDigit then
        some (pre ++ ws ++ [d1, d2, d3, d4])
      else none
    | _ => none

/-- `(Q[1-4]\s+\d{4})` at the head (case-insensitive). -/
def quarterPatQ (l : List Char) : Option (List Char) :=
  match l with
  | c1 :: c2 :: rest =>
    if c1.toLower = 'q' && ('1' ≤ c2 && c2 ≤ '4') then quarterTailAt [c1, c2] rest
    else none
  | _ => none

/-- `(FY\s+\d{4})` at the head (case-insensitive). -/
def quarterPatFY (l : List Char) : Option (List Char) :=
  match l with
  | c1 :: c2 :: rest =>
    if c1.toLower = 'f' && c2.toLower = 'y' then quarterTailAt [c1, c2] rest
    else none
  | _ => none

/-- `(H[12]\s+\d{4})` at the head (case-insensitive). -/
def quarterPatH (l : List Char) : Option (List Char) :=
  match l with
  | c1 :: c2 :: rest =>
    if c1.toLower = 'h' && (c2 = '1' ∨ c2 = '2') then quarterTailAt [c1, c2] rest
    else none
  | _ => none

/-- Model of `re.search` for one head-matcher: scan start positions left
to right. -/
def searchPat (p : List Char → Option (List Char)) : List Char → Option (List Char)
  | [] => p []
  | c :: rest =>
    match p (c :: rest) with
    | some m => some m
    | none => searchPat p rest

/-- Model of `eh_helper.normalize_quarter`: clean, search the three
quarter patterns in order, upper-case the match and collapse double
spaces; on no match return the cleaned input unchanged. -/
def normalize_quarter (raw : Option String) : Option String :=
  match clean_text raw with
  | none => none
  | some t =>
    if t = "" then none
    else
      match searchPat quarterPatQ t.data with
      | some m => some (pyReplace ⟨toUpperL m⟩ ("  ") (" "))
      | none =>
        match searchPat quarterPatFY t.data with
        | some m => some (pyReplace ⟨toUpperL m⟩ ("  ") (" "))
        | none =>
          match searchPat quarterPatH t.data with
          | some m => some (pyReplace ⟨toUpperL m⟩ ("  ") (" "))
          | none => some t

/-! ## Date/time parsing (`eh_helper.parse_date_time`)

Models `datetime.strptime` for the two fixed formats the source tries:
`"%a, %b %d, %Y, %I:%M %p"` and `"%b %d, %Y"`.  Each directive is the
character-level equivalent of the regex `strptime` compiles for it
(names matched case-insensitively, bounded digit runs), whitespace in
the format matches a run of whitespace, and the whole input must be
consumed.  Constructing the `datetime` additionally validates the day
against the month/year calendar and requires year ≥ 1. -/

def digitVal (c : Char) : Nat := c.toNat - 48

def dayAbbrs : List (List Char) :=
  [("mon").data, ("tue").data, ("wed").data, ("thu").data,
   ("fri").data, ("sat").data, ("sun").data]

def monAbbrs : List (List Char) :=
  [("jan").data, ("feb").data, ("mar").data, ("apr").data,
   ("may").data, ("jun").data, ("jul").data, ("aug").data,
   ("sep").data, ("oct").data, ("nov").data, ("dec").data]

/-- Case-insensitive literal prefix match; `w` is lower-case. -/
def dropPrefixCI : List Char → List Char → Option (List Char)
  | [], l => some l
  | _ :: _, [] => none
  | c :: w, x :: l => if x.toLower = c then dropPrefixCI w l else none

/-- Try an alternation of (lower-case) names in order; returns the
0-based index of the matching alternative and the rest of the input. -/
def matchAltAux (i : Nat) : List (List Char) → List Char → Option (Nat × List Char)
  | [], _ => none
  | w :: ws, l =>
    match dropPrefixCI w l with
    | some rest => some (i, rest)
    | none => matchAltAux (i + 1) ws l

def matchAlt (ws : List (List Char)) (l : List Char) : Option (Nat × List Char) :=
  matchAltAux 0 ws l

/-- `%d` : `(3[01]|[12]\d|0[1-9]|[1-9])`. -/
def matchDayNum : List Char → Option (Nat × List Char)
  | c1 :: c2 :: rest =>
    if c1 = '3' && (c2 = '0' || c2 = '1') then some (30 + digitVal c2, rest)
    else if (c1 = '1' || c1 = '2') && c2.isDigit then some (10 * digitVal c1 + digitVal c2, rest)
    else if c1 = '0' && ('1' ≤ c2 && c2 ≤ '9') then some (digitVal c2, rest)
    else if '1' ≤ c1 && c1 ≤ '9' then some (digitVal c1, c2 :: rest)
    else none
  | [c1] => if '1' ≤ c1 && c1 ≤ '9' then some (digitVal c1, []) else none
  | [] => none

/-- `%Y` : exactly four digits. -/
def matchYear4 : List Char → Option (Nat × List Char)
  | a :: b :: c :: d :: rest =>
    if a.isDigit && b.isDigit && c.isDigit && d.isDigit then
      some (1000 * digitVal a + 100 * digitVal b + 10 * digitVal c + digitVal d, rest)
    else none
  | _ => none

/-- `%I` : `(1[0-2]|0[1-9]|[1-9])`. -/
def matchHour12 : List Char → Option (Nat × List Char)
  | c1 :: c2 :: rest =>
    if c1 = '1' && (c2 = '0' || c2 = '1' || c2 = '2') then some (10 + digitVal c2, rest)
    else if c1 = '0' && ('1' ≤ c2 && c2 ≤ '9') then some (digitVal c2, rest)
    else if '1' ≤ c1 && c1 ≤ '9' then some (digitVal c1, c2 :: rest)
    else none
  | [c1] => if '1' ≤ c1 && c1 ≤ '9' then some (digitVal c1, []) else none
  | [] => none

/-- `%M` : `([0-5]\d|\d)`. -/
def matchMinute : List Char → Option (Nat × List Char)
  | c1 :: c2 :: rest =>
    if ('0' ≤ c1 && c1 ≤ '5') && c2.isDigit then some (10 * digitVal c1 + digitVal c2, rest)
    else if c1.isDigit then some (digitVal c1, c2 :: rest)
    else none
  | [c1] => if c1.isDigit then some (digitVal c1, []) else none
  | [] => none

/-- `%p` : `AM`/`PM`, case-insensitive; `true` means PM. -/
def matchAmPm : List Char → Option (Bool × List Char)
  | a :: b :: rest =>
    if a.toLower = 'a' && b.toLower = 'm' then some (false, rest)
    else if a.toLower = 'p' && b.toLower = 'm' then some (true, rest)
    else none
  | _ => none

/-- A literal character of the format. -/
def matchLit (c : Char) : List Char → Option (List Char)
  | x :: rest => if x = c then some rest else none
  | [] => none

/-- Whitespace in the format: `\s+`. -/
def matchWs1 : List Char → Option (List Char)
  | c :: rest => if c.isWhitespace then some (rest.dropWhile Char.isWhitespace) else none
  | [] => none

def isLeapYear (y : Nat) : Bool := (y % 4 = 0 && y % 100 ≠ 0) || y % 400 = 0

def daysInMonth (y m : Nat) : Nat :=
  if m = 2 then (if isLeapYear y then 29 else 28)
  else if m = 4 ∨ m = 6 ∨ m = 9 ∨ m = 11 then 30
  else 31

/-- The checks `datetime(...)` performs beyond the regex: year ≥ 1
(`MINYEAR`) and day within the month. -/
def validDate (y m d : Nat) : Bool := 1 ≤ y && d ≤ daysInMonth y m

/-- First half of format `"%a, %b %d, %Y, %I:%M %p"`: returns
(month, day, year) and the unconsumed input. -/
def parseFmt1Date (l : List Char) : Option (Nat × Nat × Nat × List Char) := do
  let (_, l) ← matchAlt dayAbbrs l
  let l ← matchLit ',' l
  let l ← matchWs1 l
  let (mIdx, l) ← matchAlt monAbbrs l
  let l ← matchWs1 l
  let (d, l) ← matchDayNum l
  let l ← matchLit ',' l
  let l ← matchWs1 l
  let (y, l) ← matchYear4 l
  some (mIdx + 1, d, y, l)

/-- Second half of format `"%a, %b %d, %Y, %I:%M %p"` (from the comma
after the year): returns (hour12, minute, isPM), requiring the whole
input consumed. -/
def parseFmt1Time (l : List Char) : Option (Nat × Nat × Bool) := do
  let l ← matchLit ',' l
  let l ← matchWs1 l
  let (h, l) ← matchHour12 l
  let l ← matchLit ':' l
  let (mi, l) ← matchMinute l
  let l ← matchWs1 l
  let (pm, l) ← matchAmPm l
  if l.isEmpty then some (h, mi, pm) else none

/-- Parse with format `"%a, %b %d, %Y, %I:%M %p"`; returns
(month, day, year, hour12, minute, isPM). -/
def parseFmt1 (l : List Char) : Option (Nat × Nat × Nat × Nat × Nat × Bool) := do
  let (m, d, y, rest) ← parseFmt1Date l
  let (h, mi, pm) ← parseFmt1Time rest
  some (m, d, y, h, mi, pm)

/-- Parse with format `"%b %d, %Y"`; returns (month, day, year). -/
def parseFmt2 (l : List Char) : Option (Nat × Nat × Nat) := do
  let (mIdx, l) ← matchAlt monAbbrs l
  let l ← matchWs1 l
  let (d, l) ← matchDayNum l
  let l ← matchLit ',' l
  let l ← matchWs1 l
  let (y, l) ← matchYear4 l
  if l.isEmpty then some (mIdx + 1, d, y) else none

/-- Decimal digits of a natural number (fuel-indexed worker). -/
def natDigitsAux : Nat → Nat → List Char
  | 0, _ => []
  | _ + 1, 0 => []
  | fuel + 1, n => natDigitsAux fuel (n / 10) ++ [Nat.digitChar (n % 10)]

def natChars (n : Nat) : List Char :=
  if n = 0 then ['0'] else natDigitsAux (n + 1) n

/-- Zero-pad to two digits (`%m`, `%d`, `%M`). -/
def pad2 (n : Nat) : List Char :=
  if n < 10 then '0' :: natChars n else natChars n

/-- Zero-pad to four digits (`%Y`; the source's years come from a
four-digit match). -/
def pad4 (n : Nat) : List Char :=
  let ds := natChars n
  List.replicate (4 - ds.length) '0' ++ ds

/-- `dt.strftime("%m/%d/%Y")`. -/
def fmtDate (m d y : Nat) : String :=
  ⟨pad2 m ++ '/' :: pad2 d ++ '/' :: pad4 y⟩

/-- `_fmt_time_portable`: `%-I:%M %p` (un-padded 12-hour clock) from the
24-hour value. -/
def fmtTime (h24 mi : Nat) : String :=
  ⟨natChars (if h24 % 12 = 0 then 12 else h24 % 12) ++ ':' :: pad2 mi ++
    ' ' :: (if h24 < 12 then ("AM").data else ("PM").data)⟩

/-- The 12-hour → 24-hour conversion `strptime` applies for `%I`/`%p`. -/
def to24h (h12 : Nat) (pm : Bool) : Nat :=
  if pm then (if h12 = 12 then 12 else h12 + 12)
  else (if h12 = 12 then 0 else h12)

/-- The suffix-stripping pass of `parse_date_time`: one pass over
`["ESTIMATE", "EST", "ACTUAL"]`, dropping a suffix (checked on the
upper-cased text) and stripping whitespace when it matches. -/
def stripDateSuffixes (s : String) : String :=
  [("ESTIMATE"), ("EST"), ("ACTUAL")].foldl
    (fun cur suf =>
      if endsWithL (toUpperL cur.data) suf.data then
        ⟨trimL (cur.data.take (cur.data.length - suf.data.length))⟩
      else cur) s

/-- The second `strptime` attempt of `parse_date_time` (`"%b %d, %Y"`)
and the total-failure fallback: on a match that survives the calendar
check return the canonical date, otherwise the cleaned text itself with
no time. -/
def dateFromCleaned2 (cleaned : String) : Option String × Option String :=
  match parseFmt2 cleaned.data with
  | some (m, d, y) =>
    if validDate y m d then (some (fmtDate m d y), none) else (some cleaned, none)
  | none => (some cleaned, none)

/-- The format-trying tail of `parse_date_time`: first the
weekday+month+day+year+time format (a match that fails the calendar
check raises and falls through, as in the source), then the date-only
format. -/
def dateFromCleaned (cleaned : String) : Option String × Option String :=
  match parseFmt1 cleaned.data with
  | some (m, d, y, h, mi, pm) =>
    if validDate y m d then (some (fmtDate m d y), some (fmtTime (to24h h pm) mi))
    else dateFromCleaned2 cleaned
  | none => dateFromCleaned2 cleaned

/-- Model of `eh_helper.parse_date_time`: clean, strip trailing
suffixes, try the weekday+time format then the date-only format, and on
total failure return the cleaned text itself with no time. -/
def parse_date_time (raw : Option String) : Option String × Option String :=
  match clean_text raw with
  | none => (none, none)
  | some t =>
    if t = "" then (none, none)
    else dateFromCleaned (stripDateSuffixes ⟨trimL t.data⟩)

/-! ## Estimate/actual disambiguation (`eh_helper.parse_est_act`) -/

/-- The pair of (value, unit) slots returned for `est` and `act`. -/
structure EstAct where
  est_value : Option String
  est_unit : Option String
  act_value : Option String
  act_unit : Option String
deriving Repr, DecidableEq

/-- Model of `eh_helper.parse_est_act`. The two-token marker branch
mirrors the source's object-identity bookkeeping positionally: `estSel`
and `actSel` are the marker-chosen positions, and the `none` cases are
the source's fill-by-elimination assignments (`est = b if a is act else
a`; `act = a if b is est else b`, with `est` there already filled). -/
def parse_est_act (values : List String) : EstAct :=
  match values with
  | [] => ⟨none, none, none, none⟩
  | _ =>
    let toks := (values.take 2).map (fun v => parse_one_value (some v))
    match toks with
    | [] => ⟨none, none, none, none⟩
    | [t] =>
      if t.is_est = some true then ⟨t.value, t.unit, none, none⟩
      else ⟨none, none, t.value, t.unit⟩
    | a :: b :: _ =>
      if a.is_est = some true ∨ b.is_est = some true ∨
         a.is_est = some false ∨ b.is_est = some false then
        let estSel : Option (Fin 2) :=
          if a.is_est = some true then some 0
          else if b.is_est = some true then some 1
          else none
        let actSel : Option (Fin 2) :=
          if a.is_est = some false then some 0
          else if b.is_est = some false then some 1
          else none
        let est :=
          match estSel with
          | some i => if i = 0 then a else b
          | none => if actSel = some 0 then b else a
        let act :=
          match actSel with
          | some i => if i = 0 then a else b
          | none => if estSel = some 1 then a else b
        ⟨est.value, est.unit, act.value, act.unit⟩
      else ⟨a.value, a.unit, b.value, b.unit⟩

/-! ## Python float parsing and status determination -/

/-- Numeric value of a digit run. -/
def digitsVal (l : List Char) : Nat := l.foldl (fun a c => 10 * a + digitVal c) 0

/-- Model of Python `float(str)` on finite decimal/scientific literals,
as an exact rational: optional sign, integer and/or fractional digit
run, optional exponent; surrounding whitespace stripped.  Non-finite
literals (`inf`, `nan`) and underscore separators are not modelled —
they cannot be produced by this pipeline's token stripping. -/
def pyFloat (s : String) : Option ℚ :=
  let l := trimL s.data
  let (neg, l1) :=
    match l with
    | '-' :: t => (true, t)
    | '+' :: t => (false, t)
    | _ => (false, l)
  let ip := l1.takeWhile Char.isDigit
  let l2 := l1.dropWhile Char.isDigit
  let (fp, l3) :=
    match l2 with
    | '.' :: t => (t.takeWhile Char.isDigit, t.dropWhile Char.isDigit)
    | _ => ([], l2)
  if ip.isEmpty ∧ fp.isEmpty then none
  else
    -- value = sign · (digits of ip++fp) · 10^(exponent − |fp|), built with
    -- `mkRat` over machine-arithmetic `Int`/`Nat` powers
    let signedNum : Int :=
      if neg then -(digitsVal (ip ++ fp) : Int) else (digitsVal (ip ++ fp) : Int)
    let build : Int → ℚ := fun ex =>
      let p : Int := ex - (fp.length : Int)
      if 0 ≤ p then mkRat (signedNum * Int.pow 10 p.toNat) 1
      else mkRat signedNum (Nat.pow 10 (-p).toNat)
    match l3 with
    | [] => some (build 0)
    | c :: t =>
      if c = 'e' ∨ c = 'E' then
        let (eneg, t1) :=
          match t with
          | '-' :: u => (true, u)
          | '+' :: u => (false, u)
          | _ => (false, t)
        let ed := t1.takeWhile Char.isDigit
        let t2 := t1.dropWhile Char.isDigit
        if ed.isEmpty ∨ ¬ t2.isEmpty then none
        else some (build (if eneg then -(digitsVal ed : Int) else (digitsVal ed : Int)))
      else none

/-- Model of `eh_helper.determine_status`.  The `actual`/`estimate`
arguments are the value strings the history pipeline passes; the
`try`-wrapped `float(actual) >= float(estimate)` comparison returns
`none` (rendered as an empty status downstream) whenever either string
fails to parse.  A present percentage decides by sign alone. -/
def determine_status (percentage : Option ℚ) (actual estimate : Option String) :
    Option String :=
  match percentage with
  | some p => some (if 0 ≤ p then ("Beat") else ("Miss"))
  | none =>
    match actual, estimate with
    | some a, some e =>
      match pyFloat a, pyFloat e with
      | some av, some ev => some (if ev ≤ av then ("Beat") else ("Miss"))
      | _, _ => none
    | _, _ => none

/-- Model of `eh_helper.parse_percent`: strip, drop `%` and thousands
separators, parse as a signed decimal; non-numeric input gives `none`. -/
def parse_percent (s : Option String) : Option ℚ :=
  match s with
  | none => none
  | some s =>
    if s = "" then none
    else pyFloat (pyReplace (pyReplace ⟨trimL s.data⟩ ("%") ("")) (",") (""))

/-! ## History row assembly (`history_parser._transform_row`, `parse_rows`)
and the controller's de-duplication (`controller.parse_earnings`).

A body row is modelled from the point where the source has mapped the
normalized headers to cleaned cell texts (`_row_to_map`): one optional
string per header key the transformation reads. -/

/-- Python truthiness of an optional string: `None` and `""` are falsy. -/
def falsy : Option String → Bool
  | none => true
  | some s => s = ""

/-- Python `a or b` on optional strings: `a` if truthy, else `b` verbatim. -/
def pyOr (a b : Option String) : Option String := if falsy a then b else a

/-- Model of the comprehension `[v for v in cells if v]`: keep the truthy
cell texts. -/
def truthyList (l : List (Option String)) : List String :=
  l.filterMap (fun o =>
    match o with
    | some s => if s = "" then none else some s
    | none => none)

/-- The header-keyed cell texts `_transform_row` reads (each already
passed through `clean_text` by `_row_to_map`; a key absent from the
table is `none`). -/
structure RowMap where
  earnings : Option String := none
  quarter : Option String := none
  release_date : Option String := none
  date : Option String := none
  rev_est : Option String := none
  rev_act : Option String := none
  eps_est : Option String := none
  eps_act : Option String := none
  rev_surp : Option String := none
  rev_pct : Option String := none
  eps_surp : Option String := none
  eps_pct : Option String := none
deriving Repr, DecidableEq

/-- The record `_transform_row` emits.  String fields hold `x or ""`
exactly as in the source; the two percentage fields keep the parsed
rational (the source renders them to two decimals only when emitting
CSV text). -/
structure ParsedRow where
  ticker : String
  quarter : String
  date : String
  rev_est : String
  rev_est_unit : String
  rev_act : String
  rev_act_unit : String
  rev_pct : Option ℚ
  rev_status : String
  eps_est : String
  eps_act : String
  eps_pct : Option ℚ
  eps_status : String
deriving Repr, DecidableEq

def orEmpty : Option String → String
  | none => ""
  | some s => s

/-- The derived quarter of a history row (`_transform_row`). -/
def rowQuarter (row : RowMap) : Option String :=
  normalize_quarter (pyOr row.earnings (pyOr row.quarter none))

/-- The derived date of a history row (the time component of
`parse_date_time` is computed but not emitted by the source). -/
def rowDate (row : RowMap) : Option String :=
  (parse_date_time (pyOr row.release_date row.date)).1

/-- The revenue est/act pair of a history row. -/
def rowRevParsed (row : RowMap) : EstAct :=
  parse_est_act (truthyList [row.rev_est, row.rev_act])

/-- The EPS est/act pair of a history row. -/
def rowEpsParsed (row : RowMap) : EstAct :=
  parse_est_act (truthyList [row.eps_est, row.eps_act])

def rowRevPct (row : RowMap) : Option ℚ := parse_percent (pyOr row.rev_surp row.rev_pct)

def rowEpsPct (row : RowMap) : Option ℚ := parse_percent (pyOr row.eps_surp row.eps_pct)

/-- The discard test of `_transform_row`:
`not any([quarter, date, rev_est, rev_act, eps_est, eps_act])`. -/
def rowSixFalsy (row : RowMap) : Bool :=
  falsy (rowQuarter row) && falsy (rowDate row) &&
  falsy (rowRevParsed row).est_value && falsy (rowRevParsed row).act_value &&
  falsy (rowEpsParsed row).est_value && falsy (rowEpsParsed row).act_value

/-- The record `_transform_row` builds for a retained row. -/
def rowRecord (ticker : String) (row : RowMap) : ParsedRow :=
  { ticker := ticker
    quarter := orEmpty (rowQuarter row)
    date := orEmpty (rowDate row)
    rev_est := orEmpty (rowRevParsed row).est_value
    rev_est_unit := orEmpty (rowRevParsed row).est_unit
    rev_act := orEmpty (rowRevParsed row).act_value
    rev_act_unit := orEmpty (rowRevParsed row).act_unit
    rev_pct := rowRevPct row
    rev_status := orEmpty (determine_status (rowRevPct row)
      (rowRevParsed row).act_value (rowRevParsed row).est_value)
    eps_est := orEmpty (rowEpsParsed row).est_value
    eps_act := orEmpty (rowEpsParsed row).act_value
    eps_pct := rowEpsPct row
    eps_status := orEmpty (determine_status (rowEpsPct row)
      (rowEpsParsed row).act_value (rowEpsParsed row).est_value) }

/-- Model of `history_parser._transform_row`: derive quarter, date,
revenue and EPS value pairs, percentages and statuses, and discard the
row when none of the six key fields is truthy. -/
def transform_row (ticker : String) (row : RowMap) : Option ParsedRow :=
  if rowSixFalsy row then none else some (rowRecord ticker row)

/-- Model of `EarningsHubHistoryParser.parse_rows` from the row-map
level on: transform each body row, keeping the rows that survive. -/
def parse_rows (ticker : String) (rows : List RowMap) : List ParsedRow :=
  rows.filterMap (transform_row ticker)

/-- The (quarter, date) key `controller.parse_earnings` de-duplicates on. -/
def qdKey (r : ParsedRow) : String × String := (r.quarter, r.date)

/-- Worker for `drop_duplicates(subset=["quarter","date"], keep="first")`:
keep a row when its key has not been seen yet. -/
def dropDupAux (seen : List (String × String)) : List ParsedRow → List ParsedRow
  | [] => []
  | r :: rs =>
    if qdKey r ∈ seen then dropDupAux seen rs
    else r :: dropDupAux (qdKey r :: seen) rs

/-- Model of the pandas call in `controller.parse_earnings`:
de-duplicate by (quarter, date), keeping the first occurrence. -/
def dropDuplicatesQD (rows : List ParsedRow) : List ParsedRow := dropDupAux [] rows

/-- Model of `controller.parse_earnings`: parse the history rows, then
de-duplicate by (quarter, date) keeping the first occurrence. -/
def parse_earnings (ticker : String) (rows : List RowMap) : List ParsedRow :=
  dropDuplicatesQD (parse_rows ticker rows)

/-! ## Fetch orchestrator (`scraper.fetch_variants`)

The orchestrator is modelled as a state machine over an environment
giving the cache contents at invocation time and the page source each
capture would observe.  Side effects (opening the browsing session,
navigations, cache writes) are recorded as an action trace; the
returned dictionary is a key-ordered association list. -/

inductive Variant
  | overview
  | analyst
  | earnings
deriving Repr, DecidableEq

/-- The variants a caller may request (`ALLOWED`). -/
inductive ReqVariant
  | overview
  | full
deriving Repr, DecidableEq

def variantName : Variant → String
  | .overview => "overview"
  | .analyst => "analyst"
  | .earnings => "earnings"

/-- Observable effects of one `fetch_variants` invocation. -/
inductive Action
  | openSession
  | navigate (url : String)
  | write (v : Variant)
deriving Repr, DecidableEq

/-- The external world one invocation sees: which sub-documents already
exist in the cache for this ticker, and the page source each capture
would return. -/
structure FetchEnv where
  cacheDir : String
  cached : Variant → Bool
  page : Variant → String

/-- Model of `_friendly_path`. -/
def friendly_path (env : FetchEnv) (ticker : String) (v : Variant) : String :=
  env.cacheDir ++ "/" ++ String.mk (toUpperL (trimL ticker.data)) ++ "_" ++ variantName v ++ ".html"

/-- Model of `_no_results`: the page reports "symbol not found". -/
def no_results (html : String) : Bool :=
  isInfixL ("symbol not found").data (toLowerL html.data)

/-- `dict.fromkeys` on the requested variants: de-duplicate keeping the
first occurrence. -/
def pyDedupAux : List ReqVariant → List ReqVariant → List ReqVariant
  | _, [] => []
  | seen, x :: xs =>
    if x ∈ seen then pyDedupAux seen xs else x :: pyDedupAux (x :: seen) xs

def pyDedup (l : List ReqVariant) : List ReqVariant := pyDedupAux [] l

/-- Result of one invocation: the recorded action trace and the
returned variant → path dictionary (insertion ordered, keys unique). -/
structure FetchResult where
  actions : List Action
  results : List (Variant × String)
deriving Repr, DecidableEq

/-- `results.setdefault(v, friendly_path v)` for the three variants, in
source order. -/
def setDefaults (env : FetchEnv) (ticker : String) (res : List (Variant × String)) :
    List (Variant × String) :=
  [Variant.overview, Variant.analyst, Variant.earnings].foldl
    (fun acc v =>
      if (acc.lookup v).isSome then acc else acc ++ [(v, friendly_path env ticker v)])
    res

instance {ε α : Type} [DecidableEq ε] [DecidableEq α] : DecidableEq (Except ε α) := fun a b =>
  match a, b with
  | .ok x, .ok y =>
    if h : x = y then isTrue (by rw [h]) else isFalse (by intro hc; cases hc; exact h rfl)
  | .error x, .error y =>
    if h : x = y then isTrue (by rw [h]) else isFalse (by intro hc; cases hc; exact h rfl)
  | .ok _, .error _ => isFalse (by intro hc; cases hc)
  | .error _, .ok _ => isFalse (by intro hc; cases hc)

/-- The overview capture step (source lines under
`if not self._exists(name_prefix, VARIANT_OVERVIEW)`), as (actions,
results entries). -/
def stepOverview (env : FetchEnv) (ticker : String) (wantOverview : Bool) :
    List Action × List (Variant × String) :=
  if wantOverview && !env.cached .overview then
    if !no_results (env.page .overview) then
      ([.write .overview], [(.overview, friendly_path env ticker .overview)])
    else ([], [])
  else ([], [])

/-- The analyst-ratings capture step: navigate to the ratings sub-page,
then capture and conditionally persist. -/
def stepAnalyst (env : FetchEnv) (url ticker : String) (wantOverview : Bool) :
    List Action × List (Variant × String) :=
  if wantOverview && !env.cached .analyst then
    if !no_results (env.page .analyst) then
      ([.navigate (rstripSlash url ++ "/analysts"), .write .analyst],
       [(.analyst, friendly_path env ticker .analyst)])
    else ([.navigate (rstripSlash url ++ "/analysts")], [])
  else ([], [])

/-- The earnings-history capture step. -/
def stepEarnings (env : FetchEnv) (url ticker : String) (wantEarnings : Bool) :
    List Action × List (Variant × String) :=
  if wantEarnings && !env.cached .earnings then
    if !no_results (env.page .earnings) then
      ([.navigate (rstripSlash url ++ "/earnings"), .write .earnings],
       [(.earnings, friendly_path env ticker .earnings)])
    else ([.navigate (rstripSlash url ++ "/earnings")], [])
  else ([], [])

/-- The browsing-session body of `fetch_variants` (everything after the
cache-satisfied short-circuit): open one session, navigate the base
page, run the three conditional capture steps, and for a `full` request
fill remaining result keys with their friendly paths. -/
def fetchBody (env : FetchEnv) (url : String) (order : List ReqVariant)
    (ticker : String) : FetchResult :=
  let wantOverview := order.contains .overview || order.contains .full
  let wantEarnings := order.contains .full
  let sO := stepOverview env ticker wantOverview
  let sA := stepAnalyst env url ticker wantOverview
  let sE := stepEarnings env url ticker wantEarnings
  let res := sO.2 ++ sA.2 ++ sE.2
  let res := if order.contains .full then setDefaults env ticker res else res
  ⟨[.openSession, .navigate url] ++ sO.1 ++ sA.1 ++ sE.1, res⟩

/-- The cache-satisfied check of `fetch_variants` (after the argument
validation): serve a `full` request entirely from cache when all three
sub-documents exist, an overview request when overview and analyst
exist, and otherwise run the browsing-session body. -/
def fetch_variants_checked (env : FetchEnv) (url : String) (order : List ReqVariant)
    (ticker : String) : Except String FetchResult :=
  if order.contains .full ∧
      (env.cached .overview && env.cached .analyst && env.cached .earnings) then
    .ok ⟨[], [(.overview, friendly_path env ticker .overview),
              (.analyst, friendly_path env ticker .analyst),
              (.earnings, friendly_path env ticker .earnings)]⟩
  else if (¬ order.contains .full) ∧ (env.cached .overview && env.cached .analyst) then
    .ok ⟨[], [(.overview, friendly_path env ticker .overview),
              (.analyst, friendly_path env ticker .analyst)]⟩
  else
    .ok (fetchBody env url order ticker)

/-- Model of `EarningsHubModularScraper.fetch_variants` along its
normal-execution path (navigation succeeds; the best-effort interactive
steps' failures are swallowed as in the source).  Raised `ValueError`s
are the `Except.error` branch. -/
def fetch_variants (env : FetchEnv) (url : String) (variants : List ReqVariant)
    (ticker : String) : Except String FetchResult :=
  if pyDedup variants = [] then .error "variants must be a non-empty subset of the allowed set"
  else if ticker = "" then .error "name_prefix (ticker) is required"
  else fetch_variants_checked env url (pyDedup variants) ticker

/-! ## Reconciliation store (`db/crud.py`)

`upsert_earnings_row` is in the source; the affected-row count it reads
comes from the external storage engine, modelled below from the spec. -/

/-- The mutable (overwritten-on-conflict) columns of a persisted row:
every `CanonicalEarningsRecord` field except the (ticker, report date)
key. -/
structure MutFields where
  quarter : Option String
  rev_est : Option ℚ
  rev_est_unit : Option String
  rev_act : Option ℚ
  rev_act_unit : Option String
  rev_pct : Option ℚ
  rev_status : Option String
  eps_est : Option ℚ
  eps_act : Option ℚ
  eps_pct : Option ℚ
  eps_status : Option String
deriving Repr, DecidableEq

/-- A canonical earnings record presented to the upsert (the `Earnings`
dataclass, with the report date kept as its canonical string form). -/
structure EarningsRec where
  ticker : String
  report_date : String
  fields : MutFields
deriving Repr, DecidableEq

/-- One persisted row. -/
structure DbRow where
  id : Nat
  ticker : String
  report_date : String
  fields : MutFields
deriving Repr, DecidableEq

/-- The relational table state: rows plus the auto-increment counter. -/
structure DbState where
  rows : List DbRow
  nextId : Nat
deriving Repr, DecidableEq

def keyMatches (e : EarningsRec) (r : DbRow) : Bool :=
  r.ticker = e.ticker && r.report_date = e.report_date

/-- Modelled from the spec: the consumed capability interface
`executeUpsert(row) -> affectedRowCount` — the storage engine's
conflict-aware insert (`INSERT ... ON DUPLICATE KEY UPDATE` with
uniqueness on (ticker, report_date)).  A fresh insert reports one
affected row; a conflict that changes at least one column overwrites
the mutable fields in place and reports two (insert-then-update
semantics); a conflict with no actual value change reports zero. -/
def executeUpsert (st : DbState) (e : EarningsRec) : DbState × Nat :=
  match st.rows.find? (keyMatches e) with
  | none =>
    ({ rows := st.rows ++ [⟨st.nextId, e.ticker, e.report_date, e.fields⟩],
       nextId := st.nextId + 1 }, 1)
  | some r =>
    if r.fields = e.fields then (st, 0)
    else
      ({ st with
          rows := st.rows.map (fun r2 => if keyMatches e r2 then { r2 with fields := e.fields } else r2) },
       2)

/-- The action classification in `upsert_earnings_row`: rowcount 1 →
inserted, 2 → updated, anything else → unchanged. -/
def classifyRowcount (rc : Nat) : String :=
  if rc = 1 then ("inserted") else if rc = 2 then ("updated") else ("unchanged")

/-- Model of `crud.upsert_earnings_row`: run the engine's upsert and
classify the reported affected-row count. -/
def upsert_earnings_row (st : DbState) (e : EarningsRec) : DbState × String :=
  let (st2, rc) := executeUpsert st e
  (st2, classifyRowcount rc)

/-! ## Shared helper lemmas -/

lemma find?_append_of_none {α} (p : α → Bool) {l1 : List α} (l2 : List α)
    (h : l1.find? p = none) : (l1 ++ l2).find? p = l2.find? p := by
  induction l1 with
  | nil => rfl
  | cons a l ih =>
    have hpa : p a = false := by
      cases hpa : p a
      · rfl
      · rw [List.find?_cons_of_pos _ hpa] at h
        exact Option.noConfusion h
    rw [List.find?_cons_of_neg _ (by simp [hpa])] at h
    rw [List.cons_append, List.find?_cons_of_neg _ (by simp [hpa])]
    exact ih h

lemma keyMatches_same_key (e : EarningsRec) (f2 : MutFields) :
    keyMatches ⟨e.ticker, e.report_date, f2⟩ = keyMatches e := by
  funext r
  rfl

/-! ## Claim theorems -/

/-- C1: classification of an upsert is driven solely by the engine's
affected-row count (1 → inserted, 2 → updated, anything else →
unchanged), and over the modelled engine the upsert is idempotent: a
fresh key inserts, an identical re-upsert is unchanged, and re-upserting
the same key with at least one mutable field changed updates. -/
theorem upsert_action_classification_and_idempotence
    (st : DbState) (e : EarningsRec)
    (hfresh : st.rows.find? (keyMatches e) = none) :
    (∀ rc : Nat, rc ≠ 1 → rc ≠ 2 → classifyRowcount rc = ("unchanged")) ∧
    classifyRowcount 1 = ("inserted") ∧
    classifyRowcount 2 = ("updated") ∧
    (upsert_earnings_row st e).2 = ("inserted") ∧
    (upsert_earnings_row (upsert_earnings_row st e).1 e).2 = ("unchanged") ∧
    (∀ f2 : MutFields, f2 ≠ e.fields →
      (upsert_earnings_row (upsert_earnings_row st e).1
        ⟨e.ticker, e.report_date, f2⟩).2 = ("updated")) := by
  have hnew : keyMatches e ⟨st.nextId, e.ticker, e.report_date, e.fields⟩ = true := by
    simp [keyMatches]
  have hup1 : upsert_earnings_row st e =
      ({ rows := st.rows ++ [⟨st.nextId, e.ticker, e.report_date, e.fields⟩],
         nextId := st.nextId + 1 }, ("inserted")) := by
    simp [upsert_earnings_row, executeUpsert, hfresh, classifyRowcount]
  have hfind1 : (st.rows ++ [(⟨st.nextId, e.ticker, e.report_date, e.fields⟩ : DbRow)]).find?
      (keyMatches e) = some ⟨st.nextId, e.ticker, e.report_date, e.fields⟩ := by
    rw [find?_append_of_none _ _ hfresh, List.find?_cons_of_pos _ hnew]
  refine ⟨?_, rfl, rfl, ?_, ?_, ?_⟩
  · intro rc h1 h2
    unfold classifyRowcount
    rw [if_neg h1, if_neg h2]
  · rw [hup1]
  · rw [hup1]
    simp [upsert_earnings_row, executeUpsert, hfind1, classifyRowcount]
  · intro f2 hne
    rw [hup1]
    simp only [upsert_earnings_row, executeUpsert, keyMatches_same_key, hfind1]
    rw [if_neg (by simpa using fun h => hne h.symm)]
    rfl

/-- C1 witness: the chain at a concrete record over the empty store. -/
theorem upsert_action_classification_and_idempotence_witness :
    (upsert_earnings_row ⟨[], 1⟩
      ⟨("AAPL"), ("07/31/2025"),
        ⟨some ("Q2 2025"), none, none, none, none, none, none, none, none, none, none⟩⟩).2 =
      ("inserted") ∧
    (upsert_earnings_row
      (upsert_earnings_row ⟨[], 1⟩
        ⟨("AAPL"), ("07/31/2025"),
          ⟨some ("Q2 2025"), none, none, none, none, none, none, none, none, none, none⟩⟩).1
      ⟨("AAPL"), ("07/31/2025"),
        ⟨some ("Q2 2025"), none, none, none, none, none, none, none, none, none, none⟩⟩).2 =
      ("unchanged") ∧
    (upsert_earnings_row
      (upsert_earnings_row ⟨[], 1⟩
        ⟨("AAPL"), ("07/31/2025"),
          ⟨some ("Q2 2025"), none, none, none, none, none, none, none, none, none, none⟩⟩).1
      ⟨("AAPL"), ("07/31/2025"),
        ⟨some ("Q3 2025"), none, none, none, none, none, none, none, none, none, none⟩⟩).2 =
      ("updated") := by
  have h := upsert_action_classification_and_idempotence ⟨[], 1⟩
    ⟨("AAPL"), ("07/31/2025"),
      ⟨some ("Q2 2025"), none, none, none, none, none, none, none, none, none, none⟩⟩
    (by decide)
  exact ⟨h.2.2.2.1, h.2.2.2.2.1,
    h.2.2.2.2.2 ⟨some ("Q3 2025"), none, none, none, none, none, none, none, none, none, none⟩
      (by decide)⟩

/-- C2: status determination — a present surprise percentage decides by
sign alone (non-negative → Beat, negative → Miss); with no percentage
and both comparands present and numeric, actual ≥ estimate → Beat and
actual < estimate → Miss; when neither comparison is possible the
status is unknown (`none`, rendered as the empty status downstream).
Includes the spec's concrete cases +2.5 → Beat, −1.0 → Miss,
actual 5.0 vs estimate 4.0 → Beat. -/
theorem determine_status_spec :
    (∀ (p : ℚ) (a e : Option String), 0 ≤ p →
      determine_status (some p) a e = some ("Beat")) ∧
    (∀ (p : ℚ) (a e : Option String), p < 0 →
      determine_status (some p) a e = some ("Miss")) ∧
    (∀ (a e : String) (av ev : ℚ), pyFloat a = some av → pyFloat e = some ev →
      determine_status none (some a) (some e) =
        some (if ev ≤ av then ("Beat") else ("Miss"))) ∧
    (∀ e, determine_status none none e = none) ∧
    (∀ a, determine_status none a none = none) ∧
    (∀ a e, pyFloat a = none → determine_status none (some a) (some e) = none) ∧
    (∀ a e, pyFloat e = none → determine_status none (some a) (some e) = none) ∧
    determine_status (some (mkRat 5 2)) none none = some ("Beat") ∧
    determine_status (some (mkRat (-1) 1)) none none = some ("Miss") ∧
    determine_status none (some ("5.0")) (some ("4.0")) = some ("Beat") := by
  refine ⟨?_, ?_, ?_, ?_, ?_, ?_, ?_, by decide, by decide, by decide⟩
  · intro p a e hp
    simp only [determine_status]
    rw [if_pos hp]
  · intro p a e hp
    simp only [determine_status]
    rw [if_neg (not_le.mpr hp)]
  · intro a e av ev ha he
    simp only [determine_status, ha, he]
  · intro e
    cases e <;> rfl
  · intro a
    cases a <;> rfl
  · intro a e ha
    cases hx : pyFloat e <;> simp only [determine_status, ha, hx]
  · intro a e he
    cases hx : pyFloat a <;> simp only [determine_status, he, hx]

/-- C2 witness: the general clauses applied at concrete inputs. -/
theorem determine_status_spec_witness :
    determine_status (some (mkRat 0 1)) none none = some ("Beat") ∧
    determine_status (some (mkRat (-3) 2)) (some ("1")) (some ("2")) = some ("Miss") ∧
    determine_status none (some ("9.5")) (some ("4")) =
      some (if (mkRat 4 1) ≤ (mkRat 19 2) then ("Beat") else ("Miss")) ∧
    determine_status none (some ("oops")) (some ("4")) = none := by
  refine ⟨determine_status_spec.1 _ _ _ (by decide),
    determine_status_spec.2.1 _ _ _ (by decide),
    determine_status_spec.2.2.1 _ _ (mkRat 19 2) (mkRat 4 1) (by decide) (by decide),
    determine_status_spec.2.2.2.2.2.1 _ _ (by decide)⟩

/-- C5: value-token parsing — placeholder tokens are absent; the
est/actual marker is a case-insensitive whole-word match ("est" or
"estimate" → estimate, else "actual" → actual); after stripping
currency symbols, thousands separators, marker words and asterisks the
remainder is matched against optional-minus + digits-and-dot +
optional single-letter unit, and a non-matching remainder is kept as
opaque value text.  "$12.3B est" → value 12.3, unit B, marked
estimate; "--" → absent. -/
theorem parse_one_value_spec :
    parse_one_value (some ("$12.3B est")) = ⟨some ("12.3"), some ("B"), some true⟩ ∧
    parse_one_value (some ("--")) = ⟨none, none, none⟩ ∧
    parse_one_value (some ("-")) = ⟨none, none, none⟩ ∧
    parse_one_value (some ("—")) = ⟨none, none, none⟩ ∧
    parse_one_value (some ("N/A")) = ⟨none, none, none⟩ ∧
    parse_one_value (some ("")) = ⟨none, none, none⟩ ∧
    parse_one_value none = ⟨none, none, none⟩ ∧
    (∀ s : String, s ≠ "" → (⟨trimL s.data⟩ : String) ∉ NO_DATA →
      parse_one_value (some s) =
        numUnitTok (stripMarkers ⟨trimL s.data⟩) (detectMarker ⟨trimL s.data⟩)) ∧
    (∀ s : String, hasWord ("est") s || hasWord ("estimate") s → detectMarker s = some true) ∧
    (∀ s : String, ¬ (hasWord ("est") s || hasWord ("estimate") s) → hasWord ("actual") s →
      detectMarker s = some false) ∧
    (∀ s : String, ¬ (hasWord ("est") s || hasWord ("estimate") s) → ¬ hasWord ("actual") s →
      detectMarker s = none) ∧
    (∀ (s2 : String) (m : Option Bool), matchNumUnit s2.data = none →
      numUnitTok s2 m = ⟨if s2 = "" then none else some s2, none, m⟩) ∧
    (∀ (s2 v : String) (u : Option Char) (m : Option Bool),
      matchNumUnit s2.data = some (v, u) →
      numUnitTok s2 m = ⟨some v, u.map (fun c => ⟨[c.toUpper]⟩), m⟩) := by
  refine ⟨by decide, by decide, by decide, by decide, by decide, by decide, by decide,
    ?_, ?_, ?_, ?_, ?_, ?_⟩
  · intro s hne hnd
    have hr : parse_one_value (some s) =
        (if s = "" then (⟨none, none, none⟩ : ValueTok)
         else if (⟨trimL s.data⟩ : String) ∈ NO_DATA then ⟨none, none, none⟩
         else numUnitTok (stripMarkers ⟨trimL s.data⟩) (detectMarker ⟨trimL s.data⟩)) := rfl
    rw [hr, if_neg hne, if_neg hnd]
  · intro s h
    unfold detectMarker
    rw [if_pos h]
  · intro s h1 h2
    unfold detectMarker
    rw [if_neg h1, if_pos h2]
  · intro s h1 h2
    unfold detectMarker
    rw [if_neg h1, if_neg h2]
  · intro s2 m hm
    unfold numUnitTok
    rw [hm]
  · intro s2 v u m hm
    unfold numUnitTok
    rw [hm]

/-- C5 witness: the general clauses applied at concrete tokens. -/
theorem parse_one_value_spec_witness :
    parse_one_value (some (" $1.5B est ")) =
      numUnitTok (stripMarkers ⟨trimL (" $1.5B est ").data⟩)
        (detectMarker ⟨trimL (" $1.5B est ").data⟩) ∧
    detectMarker ("2 actual") = some false ∧
    numUnitTok ("12.3B") none =
      ⟨some ("12.3"), (some 'B').map (fun c => ⟨[c.toUpper]⟩), none⟩ ∧
    numUnitTok ("weird text") (some true) =
      ⟨if ("weird text") = "" then none else some ("weird text"), none, some true⟩ := by
  refine ⟨parse_one_value_spec.2.2.2.2.2.2.2.1 _ (by decide) (by decide),
    parse_one_value_spec.2.2.2.2.2.2.2.2.2.1 _ (by decide) (by decide),
    parse_one_value_spec.2.2.2.2.2.2.2.2.2.2.2.2 _ _ (some 'B') none (by decide),
    parse_one_value_spec.2.2.2.2.2.2.2.2.2.2.2.1 _ (some true) (by decide)⟩

/-- C4: estimate/actual disambiguation — an empty token list yields
empty est and act; a single token fills the estimate only when it is
explicitly marked as an estimate and otherwise fills the actual only;
with two tokens, a marked token is assigned by its marker and the other
resolved by elimination, and with neither marked the first token is the
estimate and the second the actual. -/
theorem parse_est_act_spec :
    (parse_est_act [] = ⟨none, none, none, none⟩) ∧
    (∀ v : String, (parse_one_value (some v)).is_est = some true →
      parse_est_act [v] =
        ⟨(parse_one_value (some v)).value, (parse_one_value (some v)).unit, none, none⟩) ∧
    (∀ v : String, (parse_one_value (some v)).is_est ≠ some true →
      parse_est_act [v] =
        ⟨none, none, (parse_one_value (some v)).value, (parse_one_value (some v)).unit⟩) ∧
    (∀ v w : String, (parse_one_value (some v)).is_est = some true →
      (parse_one_value (some w)).is_est = none →
      parse_est_act [v, w] =
        ⟨(parse_one_value (some v)).value, (parse_one_value (some v)).unit,
         (parse_one_value (some w)).value, (parse_one_value (some w)).unit⟩) ∧
    (∀ v w : String, (parse_one_value (some v)).is_est = none →
      (parse_one_value (some w)).is_est = some true →
      parse_est_act [v, w] =
        ⟨(parse_one_value (some w)).value, (parse_one_value (some w)).unit,
         (parse_one_value (some v)).value, (parse_one_value (some v)).unit⟩) ∧
    (∀ v w : String, (parse_one_value (some v)).is_est = some false →
      (parse_one_value (some w)).is_est = none →
      parse_est_act [v, w] =
        ⟨(parse_one_value (some w)).value, (parse_one_value (some w)).unit,
         (parse_one_value (some v)).value, (parse_one_value (some v)).unit⟩) ∧
    (∀ v w : String, (parse_one_value (some v)).is_est = none →
      (parse_one_value (some w)).is_est = some false →
      parse_est_act [v, w] =
        ⟨(parse_one_value (some v)).value, (parse_one_value (some v)).unit,
         (parse_one_value (some w)).value, (parse_one_value (some w)).unit⟩) ∧
    (∀ v w : String, (parse_one_value (some v)).is_est = some true →
      (parse_one_value (some w)).is_est = some false →
      parse_est_act [v, w] =
        ⟨(parse_one_value (some v)).value, (parse_one_value (some v)).unit,
         (parse_one_value (some w)).value, (parse_one_value (some w)).unit⟩) ∧
    (∀ v w : String, (parse_one_value (some v)).is_est = some false →
      (parse_one_value (some w)).is_est = some true →
      parse_est_act [v, w] =
        ⟨(parse_one_value (some w)).value, (parse_one_value (some w)).unit,
         (parse_one_value (some v)).value, (parse_one_value (some v)).unit⟩) ∧
    (∀ v w : String, (parse_one_value (some v)).is_est = none →
      (parse_one_value (some w)).is_est = none →
      parse_est_act [v, w] =
        ⟨(parse_one_value (some v)).value, (parse_one_value (some v)).unit,
         (parse_one_value (some w)).value, (parse_one_value (some w)).unit⟩) := by
  refine ⟨rfl, ?_, ?_, ?_, ?_, ?_, ?_, ?_, ?_, ?_⟩
  · intro v hv
    simp [parse_est_act, hv]
  · intro v hv
    simp [parse_est_act, hv]
  all_goals intro v w hv hw
  all_goals simp [parse_est_act, hv, hw]

/-- C4 witness: the disambiguation clauses at concrete tokens. -/
theorem parse_est_act_spec_witness :
    parse_est_act [("1.2 est")] =
      ⟨(parse_one_value (some ("1.2 est"))).value,
       (parse_one_value (some ("1.2 est"))).unit, none, none⟩ ∧
    parse_est_act [("7.7")] =
      ⟨none, none, (parse_one_value (some ("7.7"))).value,
       (parse_one_value (some ("7.7"))).unit⟩ ∧
    parse_est_act [("1.2 est"), ("3.4")] =
      ⟨(parse_one_value (some ("1.2 est"))).value,
       (parse_one_value (some ("1.2 est"))).unit,
       (parse_one_value (some ("3.4"))).value,
       (parse_one_value (some ("3.4"))).unit⟩ ∧
    parse_est_act [("1.2 actual"), ("3.4")] =
      ⟨(parse_one_value (some ("3.4"))).value,
       (parse_one_value (some ("3.4"))).unit,
       (parse_one_value (some ("1.2 actual"))).value,
       (parse_one_value (some ("1.2 actual"))).unit⟩ ∧
    parse_est_act [("1.2"), ("3.4")] =
      ⟨(parse_one_value (some ("1.2"))).value,
       (parse_one_value (some ("1.2"))).unit,
       (parse_one_value (some ("3.4"))).value,
       (parse_one_value (some ("3.4"))).unit⟩ := by
  refine ⟨parse_est_act_spec.2.1 _ (by decide),
    parse_est_act_spec.2.2.1 _ (by decide),
    parse_est_act_spec.2.2.2.1 _ _ (by decide) (by decide),
    parse_est_act_spec.2.2.2.2.2.1 _ _ (by decide) (by decide),
    parse_est_act_spec.2.2.2.2.2.2.2.2.2 _ _ (by decide) (by decide)⟩

/-- C10: in history-row assembly the empty cell is filtered out before
disambiguation, so a lone unmarked populated cell — even when it is the
estimate column — parses into the actual slot with the estimate left
empty; the positional two-token default never applies with one empty
cell. -/
theorem history_single_cell_actual_default :
    (∀ (est_cell act_cell : Option String) (s : String), est_cell = some s → s ≠ "" →
      falsy act_cell = true → (parse_one_value (some s)).is_est = none →
      parse_est_act (truthyList [est_cell, act_cell]) =
        ⟨none, none, (parse_one_value (some s)).value, (parse_one_value (some s)).unit⟩) ∧
    (transform_row ("T") { rev_est := some ("2.5B") }).map
      (fun p => (p.rev_est, p.rev_act)) = some ((""), ("2.5")) := by
  refine ⟨?_, by decide⟩
  intro est_cell act_cell s hes hne hfal hmark
  have hlist : truthyList [est_cell, act_cell] = [s] := by
    cases act_cell with
    | none => simp [truthyList, hes, hne]
    | some a =>
      have ha : a = "" := by simpa [falsy] using hfal
      simp [truthyList, hes, hne, ha]
  rw [hlist]
  simp [parse_est_act, hmark]

/-- C10 witness: the filtered single-cell clause at a concrete cell. -/
theorem history_single_cell_actual_default_witness :
    parse_est_act (truthyList [some ("2.5B"), none]) =
      ⟨none, none, (parse_one_value (some ("2.5B"))).value,
       (parse_one_value (some ("2.5B"))).unit⟩ :=
  history_single_cell_actual_default.1 (some ("2.5B")) none ("2.5B")
    rfl (by decide) (by decide) (by decide)

lemma dropDupAux_sublist (seen : List (String × String)) (rows : List ParsedRow) :
    (dropDupAux seen rows).Sublist rows := by
  induction rows generalizing seen with
  | nil => exact .slnil
  | cons r rs ih =>
    unfold dropDupAux
    by_cases h : qdKey r ∈ seen
    · rw [if_pos h]
      exact (ih seen).cons r
    · rw [if_neg h]
      exact (ih _).cons₂ r

lemma dropDupAux_key_not_seen (seen : List (String × String)) (rows : List ParsedRow) :
    ∀ x ∈ dropDupAux seen rows, qdKey x ∉ seen := by
  induction rows generalizing seen with
  | nil => intro x hx; cases hx
  | cons r rs ih =>
    intro x hx
    unfold dropDupAux at hx
    by_cases h : qdKey r ∈ seen
    · rw [if_pos h] at hx
      exact ih seen x hx
    · rw [if_neg h] at hx
      cases hx with
      | head => exact h
      | tail _ hx2 =>
        intro hmem
        exact ih _ x hx2 (List.mem_cons_of_mem _ hmem)

lemma dropDupAux_keys_nodup (seen : List (String × String)) (rows : List ParsedRow) :
    ((dropDupAux seen rows).map qdKey).Nodup := by
  induction rows generalizing seen with
  | nil => exact .nil
  | cons r rs ih =>
    unfold dropDupAux
    by_cases h : qdKey r ∈ seen
    · rw [if_pos h]
      exact ih seen
    · rw [if_neg h]
      simp only [List.map_cons, List.nodup_cons]
      refine ⟨?_, ih _⟩
      intro hmem
      obtain ⟨x, hx, hkey⟩ := List.mem_map.mp hmem
      apply dropDupAux_key_not_seen _ _ x hx
      rw [hkey]
      exact List.mem_cons_self _ _

lemma dropDupAux_find? (seen : List (String × String)) (rows : List ParsedRow)
    (k : String × String) (hk : k ∉ seen) :
    (dropDupAux seen rows).find? (fun x => qdKey x = k) =
      rows.find? (fun x => qdKey x = k) := by
  induction rows generalizing seen with
  | nil => rfl
  | cons r rs ih =>
    unfold dropDupAux
    by_cases h : qdKey r ∈ seen
    · rw [if_pos h]
      have hrk : qdKey r ≠ k := fun he => hk (he ▸ h)
      rw [List.find?_cons_of_neg _ (by simp [hrk])]
      exact ih seen hk
    · rw [if_neg h]
      by_cases hrk : qdKey r = k
      · rw [List.find?_cons_of_pos _ (by simp [hrk]),
          List.find?_cons_of_pos _ (by simp [hrk])]
      · rw [List.find?_cons_of_neg _ (by simp [hrk]),
          List.find?_cons_of_neg _ (by simp [hrk])]
        apply ih
        intro hkmem
        rcases List.mem_cons.mp hkmem with he | he
        · exact hrk he.symm
        · exact hk he

/-- C7: history de-duplication — the controller's output is a sublist
of the parsed rows whose (quarter, date) keys are pairwise distinct;
for every parsed row, the output's entry for its key is exactly the
first parsed occurrence of that key in document order, and every key
present among the parsed rows is still represented in the output. -/
theorem parse_earnings_dedup_spec (ticker : String) (rows : List RowMap) :
    (parse_earnings ticker rows).Sublist (parse_rows ticker rows) ∧
    ((parse_earnings ticker rows).map qdKey).Nodup ∧
    (∀ r ∈ parse_rows ticker rows,
      (parse_earnings ticker rows).find? (fun x => qdKey x = qdKey r) =
        (parse_rows ticker rows).find? (fun x => qdKey x = qdKey r)) ∧
    (∀ r ∈ parse_rows ticker rows,
      ∃ x, x ∈ parse_earnings ticker rows ∧ qdKey x = qdKey r) := by
  refine ⟨dropDupAux_sublist [] _, dropDupAux_keys_nodup [] _, ?_, ?_⟩
  · intro r hr
    exact dropDupAux_find? [] _ _ (by simp)
  · intro r hr
    cases hfx : (parse_rows ticker rows).find? (fun x => qdKey x = qdKey r) with
    | none =>
      exfalso
      have := List.find?_eq_none.mp hfx r hr
      simp at this
    | some x =>
      have h1 : (parse_earnings ticker rows).find? (fun y => qdKey y = qdKey r) = some x := by
        have h2 := dropDupAux_find? [] (parse_rows ticker rows) (qdKey r) (by simp)
        exact h2.trans hfx
      refine ⟨x, List.mem_of_find?_eq_some h1, ?_⟩
      simpa using List.find?_some h1

/-- C7 witness: first-occurrence preservation at a duplicated concrete
row. -/
theorem parse_earnings_dedup_spec_witness :
    (parse_earnings ("T") [{ rev_act := some ("5.0") }, { rev_act := some ("5.0") }]).find?
      (fun x => qdKey x =
        qdKey ⟨("T"), (""), (""), (""), (""), ("5.0"), (""), none, (""), (""), (""), none, ("")⟩) =
    (parse_rows ("T") [{ rev_act := some ("5.0") }, { rev_act := some ("5.0") }]).find?
      (fun x => qdKey x =
        qdKey ⟨("T"), (""), (""), (""), (""), ("5.0"), (""), none, (""), (""), (""), none, ("")⟩) :=
  (parse_earnings_dedup_spec ("T")
    [{ rev_act := some ("5.0") }, { rev_act := some ("5.0") }]).2.2.1
    ⟨("T"), (""), (""), (""), (""), ("5.0"), (""), none, (""), (""), (""), none, ("")⟩
    (by decide)

lemma orEmpty_eq_empty_iff (o : Option String) : orEmpty o = "" ↔ falsy o = true := by
  cases o with
  | none => simp [orEmpty, falsy]
  | some s => simp [orEmpty, falsy]

/-- C8: discard rule — a history body row is excluded from the parser's
output exactly when all six of quarter, date, revenue estimate, revenue
actual, EPS estimate and EPS actual are absent after normalization;
equivalently, every emitted record has at least one of these six fields
populated. -/
theorem history_discard_rule :
    (∀ (ticker : String) (row : RowMap),
      transform_row ticker row = none ↔
        (falsy (rowQuarter row) = true ∧ falsy (rowDate row) = true ∧
         falsy (rowRevParsed row).est_value = true ∧ falsy (rowRevParsed row).act_value = true ∧
         falsy (rowEpsParsed row).est_value = true ∧ falsy (rowEpsParsed row).act_value = true)) ∧
    (∀ (ticker : String) (rows : List RowMap) (p : ParsedRow), p ∈ parse_rows ticker rows →
      ¬ (p.quarter = "" ∧ p.date = "" ∧ p.rev_est = "" ∧ p.rev_act = "" ∧
         p.eps_est = "" ∧ p.eps_act = "")) := by
  have hguard : ∀ row : RowMap, rowSixFalsy row = true ↔
      (falsy (rowQuarter row) = true ∧ falsy (rowDate row) = true ∧
       falsy (rowRevParsed row).est_value = true ∧ falsy (rowRevParsed row).act_value = true ∧
       falsy (rowEpsParsed row).est_value = true ∧ falsy (rowEpsParsed row).act_value = true) := by
    intro row
    simp [rowSixFalsy, Bool.and_eq_true, and_assoc]
  refine ⟨?_, ?_⟩
  · intro ticker row
    rw [← hguard]
    unfold transform_row
    by_cases h : rowSixFalsy row = true
    · simp [h]
    · simp [h]
  · intro ticker rows p hp
    obtain ⟨row, _, hrow⟩ := List.mem_filterMap.mp hp
    unfold transform_row at hrow
    by_cases h : rowSixFalsy row = true
    · rw [if_pos h] at hrow
      exact Option.noConfusion hrow
    · rw [if_neg h] at hrow
      have hpr : rowRecord ticker row = p := Option.some.inj hrow
      intro hall
      apply h
      rw [hguard]
      obtain ⟨h1, h2, h3, h4, h5, h6⟩ := hall
      rw [← hpr] at h1 h2 h3 h4 h5 h6
      exact ⟨(orEmpty_eq_empty_iff _).mp h1, (orEmpty_eq_empty_iff _).mp h2,
        (orEmpty_eq_empty_iff _).mp h3, (orEmpty_eq_empty_iff _).mp h4,
        (orEmpty_eq_empty_iff _).mp h5, (orEmpty_eq_empty_iff _).mp h6⟩

/-- C8 witness: the discard equivalence at an all-empty concrete row,
and the populated-output clause at a concrete member. -/
theorem history_discard_rule_witness :
    (transform_row ("T") { rev_est := some ("--"), rev_act := some ("-") } = none ↔
      (falsy (rowQuarter { rev_est := some ("--"), rev_act := some ("-") }) = true ∧
       falsy (rowDate { rev_est := some ("--"), rev_act := some ("-") }) = true ∧
       falsy (rowRevParsed { rev_est := some ("--"), rev_act := some ("-") }).est_value = true ∧
       falsy (rowRevParsed { rev_est := some ("--"), rev_act := some ("-") }).act_value = true ∧
       falsy (rowEpsParsed { rev_est := some ("--"), rev_act := some ("-") }).est_value = true ∧
       falsy (rowEpsParsed { rev_est := some ("--"), rev_act := some ("-") }).act_value = true)) ∧
    ¬ ((("Q1 2025") : String) = "" ∧ (("") : String) = "" ∧ (("") : String) = "" ∧
       (("") : String) = "" ∧ (("") : String) = "" ∧ (("") : String) = "") := by
  refine ⟨history_discard_rule.1 ("T") { rev_est := some ("--"), rev_act := some ("-") }, ?_⟩
  have h := history_discard_rule.2 ("T") [{ quarter := some ("Q1 2025") }]
    ⟨("T"), ("Q1 2025"), (""), (""), (""), (""), (""), none, (""), (""), (""), none, ("")⟩
    (by decide)
  exact h

/-- C3: date/time parsing — after cleaning, trailing ESTIMATE/EST/ACTUAL
suffixes are stripped; the weekday+month+day+year+time format is tried
first and on success gives (mm/dd/yyyy, time); otherwise the
month+day+year format gives (mm/dd/yyyy, no time); on total failure the
cleaned text itself is returned as the date with no time.
"Wed, Jul 31, 2025, 4:00 PM" → ("07/31/2025", "4:00 PM") and
"Jul 31, 2025" → ("07/31/2025", none). -/
theorem parse_date_time_spec :
    parse_date_time (some ("Wed, Jul 31, 2025, 4:00 PM")) =
      (some ("07/31/2025"), some ("4:00 PM")) ∧
    parse_date_time (some ("Jul 31, 2025")) = (some ("07/31/2025"), none) ∧
    parse_date_time (some ("Jul 31, 2025 EST")) = (some ("07/31/2025"), none) ∧
    parse_date_time (some ("Wed, Jul 31, 2025, 4:00 PM ESTIMATE")) =
      (some ("07/31/2025"), some ("4:00 PM")) ∧
    parse_date_time (some ("not a date")) = (some ("not a date"), none) ∧
    parse_date_time none = (none, none) ∧
    (∀ (raw : Option String) (t : String),
      clean_text raw = some t → t ≠ "" →
      parse_date_time raw = dateFromCleaned (stripDateSuffixes ⟨trimL t.data⟩)) ∧
    (∀ (cleaned : String) (m d y h mi : Nat) (pm : Bool),
      parseFmt1 cleaned.data = some (m, d, y, h, mi, pm) →
      validDate y m d = true →
      dateFromCleaned cleaned = (some (fmtDate m d y), some (fmtTime (to24h h pm) mi))) ∧
    (∀ (cleaned : String) (m d y : Nat),
      parseFmt1 cleaned.data = none →
      parseFmt2 cleaned.data = some (m, d, y) →
      validDate y m d = true →
      dateFromCleaned cleaned = (some (fmtDate m d y), none)) ∧
    (∀ cleaned : String,
      parseFmt1 cleaned.data = none →
      parseFmt2 cleaned.data = none →
      dateFromCleaned cleaned = (some cleaned, none)) := by
  refine ⟨by decide, by decide, by decide, by decide, by decide, by decide, ?_, ?_, ?_, ?_⟩
  · intro raw t h1 h2
    rw [parse_date_time.eq_def, h1]
    show (if t = "" then ((none : Option String), (none : Option String))
          else dateFromCleaned (stripDateSuffixes ⟨trimL t.data⟩)) = _
    rw [if_neg h2]
  · intro cleaned m d y h mi pm hf1 hv
    rw [dateFromCleaned.eq_def, hf1]
    show (if validDate y m d = true
          then (some (fmtDate m d y), some (fmtTime (to24h h pm) mi))
          else dateFromCleaned2 cleaned) = _
    rw [if_pos hv]
  · intro cleaned m d y hf1 hf2 hv
    rw [dateFromCleaned.eq_def, hf1]
    show dateFromCleaned2 cleaned = _
    rw [dateFromCleaned2.eq_def, hf2]
    show (if validDate y m d = true then (some (fmtDate m d y), (none : Option String))
          else (some cleaned, none)) = _
    rw [if_pos hv]
  · intro cleaned hf1 hf2
    rw [dateFromCleaned.eq_def, hf1]
    show dateFromCleaned2 cleaned = _
    rw [dateFromCleaned2.eq_def, hf2]

/-- C3 witness: the general clauses applied at concrete inputs. -/
theorem parse_date_time_spec_witness :
    parse_date_time (some (" Jul  9, 2025 ")) =
      dateFromCleaned (stripDateSuffixes ⟨trimL ("Jul 9, 2025").data⟩) ∧
    dateFromCleaned ("Tue, Jan 2, 2024, 9:30 AM") =
      (some (fmtDate 1 2 2024), some (fmtTime (to24h 9 false) 30)) ∧
    dateFromCleaned ("Jan 2, 2024") = (some (fmtDate 1 2 2024), none) ∧
    dateFromCleaned ("gibberish") = (some ("gibberish"), none) := by
  refine ⟨parse_date_time_spec.2.2.2.2.2.2.1 _ _ (by decide) (by decide),
    parse_date_time_spec.2.2.2.2.2.2.2.1 _ 1 2 2024 9 30 false (by decide) (by decide),
    parse_date_time_spec.2.2.2.2.2.2.2.2.1 _ 1 2 2024 (by decide) (by decide) (by decide),
    parse_date_time_spec.2.2.2.2.2.2.2.2.2 _ (by decide) (by decide)⟩

lemma mem_pyDedupAux (x : ReqVariant) (seen : List ReqVariant) (l : List ReqVariant) :
    x ∈ pyDedupAux seen l ↔ (x ∈ l ∧ x ∉ seen) := by
  induction l generalizing seen with
  | nil => simp [pyDedupAux]
  | cons a rest ih =>
    unfold pyDedupAux
    by_cases h : a ∈ seen
    · rw [if_pos h, ih]
      constructor
      · rintro ⟨hx, hs⟩
        exact ⟨List.mem_cons_of_mem _ hx, hs⟩
      · rintro ⟨hx, hs⟩
        rcases List.mem_cons.mp hx with he | he
        · exact absurd (he ▸ h) hs
        · exact ⟨he, hs⟩
    · rw [if_neg h]
      by_cases hxa : x = a
      · subst hxa
        simp [List.mem_cons, h]
      · constructor
        · intro hx
          rcases List.mem_cons.mp hx with he | he
          · exact absurd he hxa
          · have := (ih _).mp he
            refine ⟨List.mem_cons_of_mem _ this.1, ?_⟩
            intro hs
            exact this.2 (List.mem_cons_of_mem _ hs)
        · rintro ⟨hx, hs⟩
          rcases List.mem_cons.mp hx with he | he
          · exact absurd he hxa
          · refine List.mem_cons_of_mem _ ((ih _).mpr ⟨he, ?_⟩)
            intro hmem
            rcases List.mem_cons.mp hmem with h2 | h2
            · exact hxa h2
            · exact hs h2

lemma mem_pyDedup (x : ReqVariant) (l : List ReqVariant) : x ∈ pyDedup l ↔ x ∈ l := by
  unfold pyDedup
  rw [mem_pyDedupAux]
  simp

lemma fetch_variants_eq_checked (env : FetchEnv) (url ticker : String)
    (variants : List ReqVariant) (ho : pyDedup variants ≠ []) (ht : ticker ≠ "") :
    fetch_variants env url variants ticker =
      fetch_variants_checked env url (pyDedup variants) ticker := by
  unfold fetch_variants
  rw [if_neg ho, if_neg ht]

lemma write_mem_stepOverview (env : FetchEnv) (ticker : String) (w : Bool) (v : Variant) :
    Action.write v ∈ (stepOverview env ticker w).1 ↔
      (v = .overview ∧ w = true ∧ env.cached .overview = false ∧
       no_results (env.page .overview) = false) := by
  cases w <;> cases hc : env.cached .overview <;>
    cases hn : no_results (env.page .overview) <;>
    simp [stepOverview, hc, hn]

lemma write_mem_stepAnalyst (env : FetchEnv) (url ticker : String) (w : Bool) (v : Variant) :
    Action.write v ∈ (stepAnalyst env url ticker w).1 ↔
      (v = .analyst ∧ w = true ∧ env.cached .analyst = false ∧
       no_results (env.page .analyst) = false) := by
  cases w <;> cases hc : env.cached .analyst <;>
    cases hn : no_results (env.page .analyst) <;>
    simp [stepAnalyst, hc, hn]

lemma write_mem_stepEarnings (env : FetchEnv) (url ticker : String) (w : Bool) (v : Variant) :
    Action.write v ∈ (stepEarnings env url ticker w).1 ↔
      (v = .earnings ∧ w = true ∧ env.cached .earnings = false ∧
       no_results (env.page .earnings) = false) := by
  cases w <;> cases hc : env.cached .earnings <;>
    cases hn : no_results (env.page .earnings) <;>
    simp [stepEarnings, hc, hn]

lemma write_mem_fetchBody (env : FetchEnv) (url : String) (order : List ReqVariant)
    (ticker : String) (v : Variant) :
    Action.write v ∈ (fetchBody env url order ticker).actions ↔
      ((v = .overview ∧ (order.contains .overview || order.contains .full) = true ∧
        env.cached .overview = false ∧ no_results (env.page .overview) = false) ∨
       (v = .analyst ∧ (order.contains .overview || order.contains .full) = true ∧
        env.cached .analyst = false ∧ no_results (env.page .analyst) = false) ∨
       (v = .earnings ∧ order.contains .full = true ∧
        env.cached .earnings = false ∧ no_results (env.page .earnings) = false)) := by
  simp only [fetchBody, List.mem_append, List.mem_cons, List.mem_singleton,
    write_mem_stepOverview, write_mem_stepAnalyst, write_mem_stepEarnings]
  simp
  tauto

lemma openSession_mem_fetchBody (env : FetchEnv) (url : String) (order : List ReqVariant)
    (ticker : String) :
    Action.openSession ∈ (fetchBody env url order ticker).actions ∧
    Action.navigate url ∈ (fetchBody env url order ticker).actions := by
  simp [fetchBody]

lemma fetch_no_short_circuit (env : FetchEnv) (url ticker : String)
    (variants : List ReqVariant) (ht : ticker ≠ "") (hfull : ReqVariant.full ∈ variants)
    (hnc : ¬ (env.cached .overview = true ∧ env.cached .analyst = true ∧
              env.cached .earnings = true)) :
    fetch_variants env url variants ticker =
      .ok (fetchBody env url (pyDedup variants) ticker) := by
  have hmem : ReqVariant.full ∈ pyDedup variants := (mem_pyDedup _ _).mpr hfull
  rw [fetch_variants_eq_checked env url ticker variants (List.ne_nil_of_mem hmem) ht]
  unfold fetch_variants_checked
  rw [if_neg, if_neg]
  · rintro ⟨hcf, _⟩
    exact hcf (List.elem_iff.mpr hmem)
  · rintro ⟨_, hb⟩
    rw [Bool.and_eq_true, Bool.and_eq_true] at hb
    exact hnc ⟨hb.1.1, hb.1.2, hb.2⟩

/-- C6: cache short-circuit for `full` — when the overview, analyst and
earnings sub-documents all already exist, `fetch_variants` opens no
browsing session, performs no navigation (empty action trace) and
returns exactly the three cached locations; the short-circuit is
all-or-nothing: if any of the three is missing, the session body runs
(a session is opened and the base page is navigated). -/
theorem fetch_full_cache_short_circuit :
    (∀ (env : FetchEnv) (url ticker : String) (variants : List ReqVariant),
      ticker ≠ "" → ReqVariant.full ∈ variants →
      env.cached .overview = true → env.cached .analyst = true →
      env.cached .earnings = true →
      fetch_variants env url variants ticker =
        .ok ⟨[], [(.overview, friendly_path env ticker .overview),
                  (.analyst, friendly_path env ticker .analyst),
                  (.earnings, friendly_path env ticker .earnings)]⟩) ∧
    (∀ (env : FetchEnv) (url ticker : String) (variants : List ReqVariant),
      ticker ≠ "" → ReqVariant.full ∈ variants →
      ¬ (env.cached .overview = true ∧ env.cached .analyst = true ∧
         env.cached .earnings = true) →
      fetch_variants env url variants ticker =
        .ok (fetchBody env url (pyDedup variants) ticker) ∧
      Action.openSession ∈ (fetchBody env url (pyDedup variants) ticker).actions ∧
      Action.navigate url ∈ (fetchBody env url (pyDedup variants) ticker).actions) := by
  refine ⟨?_, ?_⟩
  · intro env url ticker variants ht hfull hc1 hc2 hc3
    have hmem : ReqVariant.full ∈ pyDedup variants := (mem_pyDedup _ _).mpr hfull
    rw [fetch_variants_eq_checked env url ticker variants (List.ne_nil_of_mem hmem) ht]
    unfold fetch_variants_checked
    rw [if_pos ⟨List.elem_iff.mpr hmem, by rw [hc1, hc2, hc3]; rfl⟩]
  · intro env url ticker variants ht hfull hnc
    exact ⟨fetch_no_short_circuit env url ticker variants ht hfull hnc,
      openSession_mem_fetchBody env url (pyDedup variants) ticker⟩

/-- C6 witness: both clauses at concrete environments. -/
theorem fetch_full_cache_short_circuit_witness :
    fetch_variants ⟨("cache"), fun _ => true, fun _ => ("ok")⟩ ("http://x/t/AAPL")
      [.full] ("AAPL") =
      .ok ⟨[], [(.overview, friendly_path ⟨("cache"), fun _ => true, fun _ => ("ok")⟩
                   ("AAPL") .overview),
                (.analyst, friendly_path ⟨("cache"), fun _ => true, fun _ => ("ok")⟩
                   ("AAPL") .analyst),
                (.earnings, friendly_path ⟨("cache"), fun _ => true, fun _ => ("ok")⟩
                   ("AAPL") .earnings)]⟩ ∧
    Action.openSession ∈
      (fetchBody ⟨("cache"), fun _ => false, fun _ => ("ok")⟩ ("http://x/t/AAPL")
        (pyDedup [.full]) ("AAPL")).actions := by
  refine ⟨fetch_full_cache_short_circuit.1 _ _ _ _ (by decide) (by decide)
      rfl rfl rfl, ?_⟩
  exact (fetch_full_cache_short_circuit.2 _ ("http://x/t/AAPL") _ [.full] (by decide)
    (by decide) (by intro h; exact Bool.noConfusion h.1)).2.1

/-- C9: empty-result pages are never cached — with the session body
running, a sub-document write occurs exactly when its step is due (not
cached) and its captured page does not signal "symbol not found"; in
particular a not-found page for one step is not written and is not an
error: the invocation still returns normally and the remaining steps
proceed by their own conditions alone. -/
theorem fetch_empty_page_not_cached :
    ∀ (env : FetchEnv) (url ticker : String) (variants : List ReqVariant),
      ticker ≠ "" → ReqVariant.full ∈ variants →
      ¬ (env.cached .overview = true ∧ env.cached .analyst = true ∧
         env.cached .earnings = true) →
      fetch_variants env url variants ticker =
        .ok (fetchBody env url (pyDedup variants) ticker) ∧
      (∀ v : Variant,
        Action.write v ∈ (fetchBody env url (pyDedup variants) ticker).actions ↔
          (env.cached v = false ∧ no_results (env.page v) = false)) ∧
      (∀ v : Variant, no_results (env.page v) = true →
        Action.write v ∉ (fetchBody env url (pyDedup variants) ticker).actions) := by
  intro env url ticker variants ht hfull hnc
  have hmem : ReqVariant.full ∈ pyDedup variants := (mem_pyDedup _ _).mpr hfull
  have hiff : ∀ v : Variant,
      Action.write v ∈ (fetchBody env url (pyDedup variants) ticker).actions ↔
        (env.cached v = false ∧ no_results (env.page v) = false) := by
    intro v
    rw [write_mem_fetchBody]
    cases v <;> simp [hmem]
  refine ⟨fetch_no_short_circuit env url ticker variants ht hfull hnc, hiff, ?_⟩
  intro v hv hmem2
  have := (hiff v).mp hmem2
  rw [hv] at this
  exact Bool.noConfusion this.2

/-- C9 witness: a concrete run where the overview page reports "symbol
not found" — overview is not written, yet the run returns normally and
the earnings write still occurs. -/
theorem fetch_empty_page_not_cached_witness :
    Action.write Variant.overview ∉
      (fetchBody
        ⟨("cache"), fun _ => false,
          fun v => match v with
            | .overview => ("Symbol Not Found")
            | _ => ("ok")⟩
        ("http://x/t/AAPL") (pyDedup [.full]) ("AAPL")).actions ∧
    (Action.write Variant.earnings ∈
      (fetchBody
        ⟨("cache"), fun _ => false,
          fun v => match v with
            | .overview => ("Symbol Not Found")
            | _ => ("ok")⟩
        ("http://x/t/AAPL") (pyDedup [.full]) ("AAPL")).actions ↔
      ((fun _ => false) Variant.earnings = false ∧
       no_results ("ok") = false)) := by
  have h := fetch_empty_page_not_cached
    ⟨("cache"), fun _ => false,
      fun v => match v with
        | .overview => ("Symbol Not Found")
        | _ => ("ok")⟩
    ("http://x/t/AAPL") ("AAPL") [.full] (by decide) (by decide)
    (by intro hc; exact Bool.noConfusion hc.1)
  exact ⟨h.2.2 .overview (by decide), h.2.1 .earnings⟩

end Epsilon
